import Mathlib

/-!
# Verification of the Jira test-case generator core (src/test-cases/src/App.jsx)

Shallow embedding of the orchestration, ranking, identifier-extraction and
CSV-export logic of the single-page application, together with theorems
checking the natural-language specification against it.

JavaScript strings are embedded as Lean `String`/`List Char`; JavaScript
objects that may lack a field use `Option`.  The two network calls and the
platform JSON parser are external effects: their outcomes are inputs of the
embedded orchestrator, which branches on them exactly as the source does.
-/

/-! ## JavaScript string trimming (used by `handleAnalyze`, lines 137 and 142)

`String.prototype.trim` removes the ECMAScript WhiteSpace and LineTerminator
code points from both ends. -/

/-- The ECMAScript white-space / line-terminator set recognised by `trim`. -/
def isJsWhitespace (c : Char) : Bool :=
  c.val = 0x9 || c.val = 0xA || c.val = 0xB || c.val = 0xC || c.val = 0xD ||
  c.val = 0x20 || c.val = 0xA0 || c.val = 0x1680 ||
  (0x2000 ≤ c.val && c.val ≤ 0x200A) ||
  c.val = 0x2028 || c.val = 0x2029 || c.val = 0x202F || c.val = 0x205F ||
  c.val = 0x3000 || c.val = 0xFEFF

/-- JavaScript `s.trim()`: drop white space from both ends. -/
def jsTrim (s : String) : String :=
  String.mk (((s.data.dropWhile isJsWhitespace).reverse.dropWhile isJsWhitespace).reverse)

/-! ## Test-case records

A generated Gherkin test case (the objects of the `testCases` array of the
first response and of the whole second response).  Every field is optional
because a JSON object in the response may lack any of them; `given`, `when`
and `then` are renamed `givenStep`/`whenStep`/`thenStep` because `then` is a
Lean keyword. -/

/-- One Gherkin test-case object as handled by the application. -/
structure TestCase where
  jiraId : Option String
  feature : Option String
  scenario : Option String
  givenStep : Option String
  whenStep : Option String
  thenStep : Option String
  priority : Option String
deriving DecidableEq

/-! ## Priority ranking (`sortTestCasesByPriority`, lines 22-38)

The source looks a priority label up in the object literal `priorityOrder`
with `priorityOrder[a.priority] || 4`.  An ECMAScript property read on an
object literal consults the own properties first and then the prototype
chain, so a key that is a property name of `Object.prototype` (for example
`"constructor"` or `"toString"`) yields the inherited property value — a
truthy function or object — and the `|| 4` default is bypassed.  The
embedding keeps that distinction. -/

/-- The own properties of the `priorityOrder` object literal (lines 23-31). -/
def priorityOrderOwn (key : String) : Option Int :=
  if key = "Alta" then some 1
  else if key = "Media" then some 2
  else if key = "Baja" then some 3
  else if key = "High" then some 1
  else if key = "Medium" then some 2
  else if key = "Low" then some 3
  else if key = "" then some 4
  else none

/-- Property names inherited from `Object.prototype`, whose values are truthy
non-numbers (functions, or the prototype object itself for `__proto__`). -/
def objectPrototypeProps : List String :=
  ["constructor", "hasOwnProperty", "isPrototypeOf", "propertyIsEnumerable",
   "toLocaleString", "toString", "valueOf", "__proto__",
   "__defineGetter__", "__defineSetter__", "__lookupGetter__", "__lookupSetter__"]

/-- Result of evaluating `priorityOrder[key] || 4`: either a number, or a
truthy non-numeric value inherited from `Object.prototype`. -/
inductive RankValue where
  | num (n : Int)
  | protoValue
deriving DecidableEq

/-- `priorityOrder[key] || 4` (lines 34-35).  Own table values are 1-4 and
truthy, so they survive `|| 4`; an inherited `Object.prototype` property is
truthy and also survives; only `undefined` falls back to `4`. -/
def priorityLookupValue (key : String) : RankValue :=
  match priorityOrderOwn key with
  | some n => .num n
  | none => if key ∈ objectPrototypeProps then .protoValue else .num 4

/-- The property key used for `priorityOrder[a.priority]`: a missing
`priority` field reads as `undefined`, which is coerced to the property key
`"undefined"`. -/
def jsPriorityKey : Option String → String
  | none => "undefined"
  | some s => s

/-- The value of the sort comparator (line 36) after the engine's
`SortCompare` step: `priorityA - priorityB` for two numbers; when either
operand is a non-numeric inherited property the subtraction is `NaN`, which
`SortCompare` maps to `+0`. -/
def sortCompare (a b : TestCase) : Int :=
  match priorityLookupValue (jsPriorityKey a.priority),
        priorityLookupValue (jsPriorityKey b.priority) with
  | .num x, .num y => x - y
  | _, _ => 0

/-- Stable insertion of one element: `a` is placed before the first element
it does not compare strictly greater than. -/
def sortInsert (a : TestCase) : List TestCase → List TestCase
  | [] => [a]
  | b :: rest => if sortCompare a b ≤ 0 then a :: b :: rest else b :: sortInsert a rest

/-- `sortTestCasesByPriority` (lines 33-37): `[...cases].sort(comparator)`.
ECMAScript mandates a stable sort, and every stable sort agrees on inputs
whose comparator is consistent; the embedding uses a stable insertion sort
(for the inconsistent-comparator inputs created by `Object.prototype` keys
the ECMAScript order is implementation-defined, and this embedding, like the
major engines on small inputs, leaves tied elements in input order). -/
def sortTestCasesByPriority : List TestCase → List TestCase
  | [] => []
  | c :: rest => sortInsert c (sortTestCasesByPriority rest)

/-! ## The two-stage orchestrator (`handleAnalyze`, lines 129-379)

The network and the platform JSON parser are external: a run's observable
behaviour is a function of the two text inputs and of the outcome of each of
the two `fetch`-plus-parse interactions, so the embedded handler takes those
outcomes as inputs and branches on them exactly as the source does.

An outcome is classified the way the source distinguishes it:
* `transportError`: `!response.ok` (line 249 / 344), carrying the HTTP
  status and the optional `message` property of the error body;
* `emptyEnvelope`: the nested
  `candidates[0].content.parts[0].text` chain of the success body is missing
  or its text is empty (the `else` branches at lines 273 and 368);
* `jsonError`: the text payload does not parse as JSON (`JSON.parse`
  throws at line 264 / 358), carrying the parse-error message and the raw
  payload used to build the user-facing message;
* `payload`: the text parsed; it carries the projection of the parsed
  value that the handler reads. -/

/-- Outcome of one generation call, parameterised by the shape of a
successfully parsed payload. -/
inductive CallOutcome (α : Type) where
  | transportError (status : Nat) (message : Option String)
  | emptyEnvelope
  | jsonError (emsg : String) (raw : String)
  | payload (val : α)
deriving DecidableEq

/-- The three properties the handler reads from the first parsed JSON value
(lines 265-267 and 280).  `none` models an absent field; an absent string
field and the empty string are interchangeable for every branch the handler
takes (`x || ''` and the `&&`-guard at line 280 treat both as falsy). -/
structure Stage1Payload where
  testCases : Option (List TestCase)
  impacts : Option String
  regressionTests : Option String
deriving DecidableEq

/-- The second parsed JSON value as the handler inspects it (line 359):
either an array of test-case objects or some non-array value. -/
inductive Stage2Payload where
  | arr (cases : List TestCase)
  | nonArray
deriving DecidableEq

/-- The inputs of one run: the two text fields and the outcome of each of
the two generation calls (the second is ignored when stage 2 never runs). -/
structure RunInput where
  jiraLink : String
  jiraContent : String
  stage1 : CallOutcome Stage1Payload
  stage2 : CallOutcome Stage2Payload

/-- The component state the handler writes, plus an instrumentation counter
of how many `fetch` calls were issued during the run. -/
structure AppState where
  testCases : Option (List TestCase)
  impacts : String
  regressionTestSuggestions : String
  regressionGherkinTestCases : Option (List TestCase)
  errorMessage : String
  networkCalls : Nat
deriving DecidableEq

/-- The cleared state established at the top of the handler (lines 131-135). -/
def clearedState : AppState :=
  { testCases := none, impacts := "", regressionTestSuggestions := "",
    regressionGherkinTestCases := none, errorMessage := "", networkCalls := 0 }

/-- Validation message for a blank Jira link (line 138). -/
def linkRequiredMessage : String :=
  "El enlace de Jira es obligatorio para el análisis de impacto."

/-- Validation message for a blank Jira description (line 143). -/
def contentRequiredMessage : String :=
  "Por favor, ingresa la descripción de la historia o épica de Jira."

/-- The message thrown for a non-ok response (lines 251 and 346): the status
is interpolated and a missing `message` in the error body falls back to the
per-call default text. -/
def httpThrowMessage (status : Nat) (message : Option String) (fallback : String) : String :=
  "Error " ++ toString status ++ ": " ++ message.getD fallback

/-- The catch-all handler message (line 375) wrapping a thrown message. -/
def generalErrorMessage (inner : String) : String :=
  "Ocurrió un error: " ++ inner ++ ". Por favor, inténtalo de nuevo."

/-- Stage-1 envelope failure message (line 274). -/
def emptyFirstResponseMessage : String :=
  "No se pudieron generar los datos iniciales. La respuesta de la IA no fue la esperada o está vacía."

/-- Stage-1 JSON parse failure message (line 269). -/
def firstJsonErrorMessage (emsg raw : String) : String :=
  "Error al parsear la primera respuesta JSON: " ++ emsg ++ ". Respuesta: " ++ raw

/-- Stage-2 envelope failure message (line 369). -/
def emptySecondResponseMessage : String :=
  "No se pudieron generar casos de prueba de regresión Gherkin. La respuesta de la IA no fue la esperada o está vacía."

/-- Stage-2 JSON parse failure message (line 366). -/
def secondJsonErrorMessage (emsg raw : String) : String :=
  "Error al parsear la segunda respuesta JSON: " ++ emsg ++ ". Respuesta: " ++ raw

/-- Stage-2 non-array payload message (line 363). -/
def nonArrayMessage : String :=
  "La segunda respuesta de la IA no es un formato de arreglo JSON válido."

/-- The guard of the second call (line 280):
`parsedFirstJson.regressionTests && parsedFirstJson.regressionTests.trim()`
— the field must be present, truthy and have a non-blank trim. -/
def stage2Triggered (p : Stage1Payload) : Bool :=
  match p.regressionTests with
  | none => false
  | some s => s ≠ "" && jsTrim s ≠ ""

/-- The stage-2 part of the handler (lines 281-371), entered only when
`stage2Triggered` holds; `s` is the state after the stage-1 writes. -/
def runStage2 (s : AppState) (outcome : CallOutcome Stage2Payload) : AppState :=
  match outcome with
  | .transportError status message =>
    { s with errorMessage := generalErrorMessage (httpThrowMessage status message
        "Error desconocido en la segunda llamada a la API.") }
  | .emptyEnvelope => { s with errorMessage := emptySecondResponseMessage }
  | .jsonError emsg raw => { s with errorMessage := secondJsonErrorMessage emsg raw }
  | .payload .nonArray => { s with errorMessage := nonArrayMessage }
  | .payload (.arr cases) =>
    { s with regressionGherkinTestCases := some (sortTestCasesByPriority cases) }

/-- The whole `handleAnalyze` run (lines 129-379) as a function from the run
inputs to the final component state. -/
def handleAnalyze (inp : RunInput) : AppState :=
  if jsTrim inp.jiraLink = "" then
    { clearedState with errorMessage := linkRequiredMessage }
  else if jsTrim inp.jiraContent = "" then
    { clearedState with errorMessage := contentRequiredMessage }
  else
    let s1 : AppState := { clearedState with networkCalls := 1 }
    match inp.stage1 with
    | .transportError status message =>
      { s1 with errorMessage := generalErrorMessage (httpThrowMessage status message
          "Error desconocido en la primera llamada a la API.") }
    | .emptyEnvelope => { s1 with errorMessage := emptyFirstResponseMessage }
    | .jsonError emsg raw => { s1 with errorMessage := firstJsonErrorMessage emsg raw }
    | .payload p =>
      let s2 : AppState :=
        { s1 with
          testCases := some (sortTestCasesByPriority (p.testCases.getD []))
          impacts := p.impacts.getD ""
          regressionTestSuggestions := p.regressionTests.getD "" }
      if stage2Triggered p then runStage2 { s2 with networkCalls := 2 } inp.stage2
      else s2

/-! ## Identifier extraction (`getJiraIdFromUrl`, lines 4-19) -/

/-- Split a character list at every occurrence of `sep`; the embedding of
`String.prototype.split` with a one-character separator (which never drops
fields: splitting the empty string yields one empty field). -/
def splitChar (sep : Char) : List Char → List (List Char)
  | [] => [[]]
  | c :: rest =>
    if c = sep then [] :: splitChar sep rest
    else
      match splitChar sep rest with
      | [] => [[c]]
      | f :: fs => (c :: f) :: fs

/-- A scheme character after the first: ASCII alphanumeric, `+`, `-` or `.`. -/
def isSchemeChar (c : Char) : Bool :=
  c.isAlpha || c.isDigit || c = '+' || c = '-' || c = '.'

/-- Modelled from the platform `new URL(url)` call at line 6 (the WHATWG URL
constructor, which is not part of this repository), restricted to the
hierarchical `scheme://host/path` form the application feeds it: returns the
parsed `pathname`, or `none` when the constructor would throw (no valid
scheme, no `//`, or an empty host).  Query/fragment parts are cut off; an
absent path reads as `"/"`.  Percent-encoding and path normalisation are not
modelled — no claim depends on them. -/
def parseUrlPathname (url : String) : Option String :=
  let cs := url.data
  let scheme := cs.takeWhile (· ≠ ':')
  let rest := cs.dropWhile (· ≠ ':')
  match rest with
  | ':' :: '/' :: '/' :: afterSlashes =>
    if scheme ≠ [] && scheme.all isSchemeChar && (scheme.head?.elim false Char.isAlpha) then
      let host := afterSlashes.takeWhile (fun c => c ≠ '/' && c ≠ '?' && c ≠ '#')
      let tail := afterSlashes.dropWhile (fun c => c ≠ '/' && c ≠ '?' && c ≠ '#')
      if host = [] then none
      else
        match tail with
        | '/' :: _ => some (String.mk (tail.takeWhile (fun c => c ≠ '?' && c ≠ '#')))
        | _ => some "/"
    else none
  | _ => none

/-- Is one path segment the `browse` / `ticket` marker (line 9)? -/
def isMarkerSegment (s : String) : Bool :=
  s = "browse" || s = "ticket"

/-- `getJiraIdFromUrl` (lines 4-19): on a URL-constructor throw the catch
block returns `""`; otherwise the pathname is split on `/`, the first
`browse`/`ticket` segment is looked up with `findIndex`, and the segment
after it is returned when it exists, the last segment otherwise. -/
def getJiraIdFromUrl (url : String) : String :=
  match parseUrlPathname url with
  | none => ""
  | some pathname =>
    let pathSegments := (splitChar '/' pathname.data).map String.mk
    match pathSegments.findIdx? isMarkerSegment with
    | some idIndex =>
      if idIndex + 1 < pathSegments.length then pathSegments.getD (idIndex + 1) ""
      else pathSegments.getLastD ""
    | none => pathSegments.getLastD ""

/-! ## CSV escaping and export (`escapeCsv` lines 392-400,
`formatContentForCsvExport` lines 406-445)

The export builds one string by concatenation; the embedding works on the
underlying character lists (a JavaScript string is a sequence of code
units) and wraps the result in `String` at the top. -/

/-- The global regex replace of line 394's first step: every double-quote
character is doubled. -/
def escQuotes : List Char → List Char
  | [] => []
  | c :: rest => if c = '"' then '"' :: '"' :: escQuotes rest else c :: escQuotes rest

/-- The global regex replace of line 394's second step: every line feed
becomes one space. -/
def flattenNl : List Char → List Char
  | [] => []
  | c :: rest => if c = '\n' then ' ' :: flattenNl rest else c :: flattenNl rest

/-- The escaping core of `escapeCsv` (lines 394-398): double the quotes,
flatten the newlines, then wrap in quotes only if the result still contains
a comma or a quote. -/
def escapeCsvChars (t : List Char) : List Char :=
  let escapedText := flattenNl (escQuotes t)
  if escapedText.contains ',' || escapedText.contains '"' then
    '"' :: (escapedText ++ ['"'])
  else escapedText

/-- The JavaScript values that can reach `escapeCsv` as a field of a parsed
JSON record (or as one of the free-text state strings). -/
inductive JsVal where
  | null
  | undefined
  | str (s : String)
  | num (n : Int)
  | boolean (b : Bool)
deriving DecidableEq

/-- `String(value)` for the values above. -/
def jsValToString : JsVal → String
  | .null => "null"
  | .undefined => "undefined"
  | .str s => s
  | .num n => toString n
  | .boolean b => if b then "true" else "false"

/-- `escapeCsv` (lines 392-400): `null`/`undefined` yield the empty string
(line 393); every other value is coerced with `String(...)` and escaped. -/
def escapeCsv (text : JsVal) : String :=
  match text with
  | .null => ""
  | .undefined => ""
  | t => String.mk (escapeCsvChars (jsValToString t).data)

/-- Reading an optional field of a record object: a missing field is
`undefined`. -/
def jsOfField : Option String → JsVal
  | none => .undefined
  | some s => .str s

/-- `array.join(',')` on character lists. -/
def joinCommaChars : List (List Char) → List Char
  | [] => []
  | [f] => f
  | f :: rest => f ++ ',' :: joinCommaChars rest

/-- The seven escaped cells of one exported row, in source order
(lines 412-420): jiraId, feature, scenario, priority, given, when, then. -/
def rowCells (tc : TestCase) : List (List Char) :=
  [(escapeCsv (jsOfField tc.jiraId)).data,
   (escapeCsv (jsOfField tc.feature)).data,
   (escapeCsv (jsOfField tc.scenario)).data,
   (escapeCsv (jsOfField tc.priority)).data,
   (escapeCsv (jsOfField tc.givenStep)).data,
   (escapeCsv (jsOfField tc.whenStep)).data,
   (escapeCsv (jsOfField tc.thenStep)).data]

/-- One exported row: `row.join(',') + '\n'` (line 422). -/
def rowChars (tc : TestCase) : List Char :=
  joinCommaChars (rowCells tc) ++ ['\n']

/-- `addTestCasesToCsv` (lines 410-424): append one row per case. -/
def addTestCasesToCsvChars (cases : List TestCase) : List Char :=
  (cases.map rowChars).flatten

/-- The fixed header labels (line 407). -/
def csvHeaders : List String :=
  ["ID de Jira", "Característica", "Escenario", "Prioridad", "Dado", "Cuando", "Entonces"]

/-- Wrap in literal double quotes (the `"${h}"` template). -/
def quoteWrapChars (s : List Char) : List Char :=
  '"' :: (s ++ ['"'])

/-- The header row `headers.map(h => quoted h).join(',') + '\n'` (line 408). -/
def headerRowChars : List Char :=
  joinCommaChars (csvHeaders.map (fun h => quoteWrapChars h.data)) ++ ['\n']

/-- A section lead-in: `'\n' + quoted marker + '\n'`. -/
def sectionLeadChars (marker : String) : List Char :=
  '\n' :: (quoteWrapChars marker.data ++ ['\n'])

/-- A free-text block line: `'"' + escapeCsv(text) + '"' + '\n'`
(lines 438 and 441 wrap the already-escaped text in one more quote pair). -/
def quotedBlockChars (text : String) : List Char :=
  quoteWrapChars (escapeCsv (.str text)).data ++ ['\n']

/-- One scenario-table section of the export: the guard
`cases && cases.length > 0` (lines 426 and 431), then the lead-in and the
rows. -/
def tableSectionChars (o : Option (List TestCase)) (marker : String) : List Char :=
  match o with
  | some l =>
    if 0 < l.length then sectionLeadChars marker ++ addTestCasesToCsvChars l else []
  | none => []

/-- One free-text section of the export: the truthiness guard (lines 437
and 440), then the lead-in and the doubly quoted block. -/
def textSectionChars (text : String) (marker : String) : List Char :=
  if text ≠ "" then sectionLeadChars marker ++ quotedBlockChars text else []

/-- `formatContentForCsvExport` (lines 406-445) on character lists. -/
def exportChars (st : AppState) : List Char :=
  headerRowChars
  ++ tableSectionChars st.testCases "--- Casos de Prueba Principales ---"
  ++ tableSectionChars st.regressionGherkinTestCases "--- Casos de Prueba de Regresión ---"
  ++ textSectionChars st.impacts "--- Impactos Sugeridos ---"
  ++ textSectionChars st.regressionTestSuggestions
      "--- Sugerencias de Pruebas de Regresión (Texto) ---"

/-- `formatContentForCsvExport`: the exported document as a string. -/
def formatContentForCsvExport (st : AppState) : String :=
  String.mk (exportChars st)

/-! ## The documented inverse: splitting a delimited-text document back

The spec documents the delimiter and quoting rules (comma delimiter,
double-quote doubling, a field quoted when it contains a comma or a quote).
The following parser is written from those words — it is the spec side of
the round-trip claim, not a translation of repository code.  A record is
read field by field: a field that starts with a double quote is read up to
the closing quote with `""` standing for one literal quote; any other field
runs to the next comma. -/

/-- Field-by-field record reader.  `inQuotes` says whether we are inside a
quoted field; `acc` holds the current field's characters in reverse. -/
def readFields (inQuotes : Bool) (acc : List Char) : List Char → List String
  | [] => [String.mk acc.reverse]
  | c :: rest =>
    if inQuotes then
      if c = '"' then
        match rest with
        | [] => [String.mk acc.reverse]
        | d :: rest2 =>
          if d = '"' then readFields true ('"' :: acc) rest2
          else if d = ',' then String.mk acc.reverse :: readFields false [] rest2
          else [String.mk acc.reverse]
      else readFields true (c :: acc) rest
    else
      if c = ',' then String.mk acc.reverse :: readFields false [] rest
      else if c = '"' && acc = [] then readFields true [] rest
      else readFields false (c :: acc) rest

/-- Split one line into its fields by the documented rules. -/
def readRecord (cs : List Char) : List String :=
  readFields false [] cs

/-- Split a document into lines and each line into fields. -/
def parseDocument (doc : String) : List (List String) :=
  (splitChar '\n' doc.data).map readRecord

/-- The value a field should round-trip to: the original with each embedded
line feed flattened to one space (the documented lossy transform). -/
def flattenedValue (f : Option String) : String :=
  match f with
  | none => ""
  | some s => String.mk (flattenNl s.data)

/-- The row of values one scenario record should round-trip to. -/
def expectedRow (tc : TestCase) : List String :=
  [flattenedValue tc.jiraId, flattenedValue tc.feature, flattenedValue tc.scenario,
   flattenedValue tc.priority, flattenedValue tc.givenStep, flattenedValue tc.whenStep,
   flattenedValue tc.thenStep]

/-- The records one scenario-table section should split back into. -/
def expectedTableRecords (o : Option (List TestCase)) (marker : String) :
    List (List String) :=
  match o with
  | some l => if 0 < l.length then [[""], [marker]] ++ l.map expectedRow else []
  | none => []

/-- The records one free-text section should split back into. -/
def expectedTextRecords (text : String) (marker : String) : List (List String) :=
  if text ≠ "" then [[""], [marker], [String.mk (flattenNl text.data)]] else []

/-- The full list of records an export of `st` should split back into:
header, then each present section (one blank record from the section's
leading newline, the section marker, then its rows or its one text block),
then the blank record after the final newline. -/
def expectedRecords (st : AppState) : List (List String) :=
  [csvHeaders]
  ++ expectedTableRecords st.testCases "--- Casos de Prueba Principales ---"
  ++ expectedTableRecords st.regressionGherkinTestCases "--- Casos de Prueba de Regresión ---"
  ++ expectedTextRecords st.impacts "--- Impactos Sugeridos ---"
  ++ expectedTextRecords st.regressionTestSuggestions
      "--- Sugerencias de Pruebas de Regresión (Texto) ---"
  ++ [[""]]

/-- The round-trip property of one application state's export. -/
def CsvRoundTrip (st : AppState) : Prop :=
  parseDocument (formatContentForCsvExport st) = expectedRecords st

/-- The character list of one escaped cell. -/
def escCell (v : Option String) : List Char :=
  (escapeCsv (jsOfField v)).data

/-- The field list of one test case in export order. -/
def caseFields (tc : TestCase) : List (Option String) :=
  [tc.jiraId, tc.feature, tc.scenario, tc.priority, tc.givenStep, tc.whenStep, tc.thenStep]

/-- Join a list of newline-free lines into one character stream, each line
terminated by a line feed. -/
def lineJoin (lines : List (List Char)) : List Char :=
  (lines.map (fun l => l ++ ['\n'])).flatten

/-- The content of the header row, without its terminating newline. -/
def headerContentChars : List Char :=
  joinCommaChars (csvHeaders.map (fun h => quoteWrapChars h.data))

/-- The lines contributed by one scenario-table section. -/
def tableSectionLines (o : Option (List TestCase)) (marker : String) : List (List Char) :=
  match o with
  | some l =>
    if 0 < l.length then
      [[], quoteWrapChars marker.data] ++ l.map (fun tc => joinCommaChars (rowCells tc))
    else []
  | none => []

/-- The lines contributed by one free-text section. -/
def textSectionLines (text : String) (marker : String) : List (List Char) :=
  if text ≠ "" then
    [[], quoteWrapChars marker.data, quoteWrapChars (escapeCsv (.str text)).data]
  else []

/-- The whole export, line by line. -/
def docLines (st : AppState) : List (List Char) :=
  [headerContentChars]
  ++ tableSectionLines st.testCases "--- Casos de Prueba Principales ---"
  ++ tableSectionLines st.regressionGherkinTestCases "--- Casos de Prueba de Regresión ---"
  ++ textSectionLines st.impacts "--- Impactos Sugeridos ---"
  ++ textSectionLines st.regressionTestSuggestions
      "--- Sugerencias de Pruebas de Regresión (Texto) ---"

/-- The state after a successful stage 1 (the three writes of lines
265-267 plus the single network call so far). -/
def stage1State (p : Stage1Payload) : AppState :=
  { testCases := some (sortTestCasesByPriority (p.testCases.getD []))
    impacts := p.impacts.getD ""
    regressionTestSuggestions := p.regressionTests.getD ""
    regressionGherkinTestCases := none
    errorMessage := ""
    networkCalls := 1 }

/-! ## Concrete fixtures used by witnesses and counterexamples -/

/-- A well-formed generated test case. -/
def validarCase : TestCase :=
  ⟨some "P-1", some "F", some "Validar el inicio", some "g", some "w", some "t", some "Alta"⟩

/-- A generated test case whose scenario does not carry the mandated
`Validar` start. -/
def holaCase : TestCase :=
  ⟨some "P-1", some "Regresión", some "Hola mundo", some "g", some "w", some "t", some "Media"⟩

/-- A test case whose priority label collides with an `Object.prototype`
property name. -/
def constructorCase : TestCase :=
  ⟨some "P-2", some "F", some "Validar algo", some "g", some "w", some "t", some "constructor"⟩

/-- A test case with the highest priority label. -/
def altaCase : TestCase :=
  ⟨some "P-3", some "F", some "Validar otra cosa", some "g", some "w", some "t", some "Alta"⟩

/-- A run whose first response contains the non-`Validar` scenario. -/
def holaInput : RunInput :=
  ⟨"https://jira.example.com/browse/P-1", "descripcion",
   .payload ⟨some [holaCase], some "imp", none⟩, .emptyEnvelope⟩

/-- An application state whose impact notes contain a comma. -/
def commaImpactsState : AppState :=
  { testCases := none, impacts := "a,b", regressionTestSuggestions := "",
    regressionGherkinTestCases := none, errorMessage := "", networkCalls := 1 }

/-- A state exercising quoting, comma and newline escaping in every section. -/
def roundTripState : AppState :=
  { testCases := some [⟨some "J-1", some "Fea,ture", some "Validar \"x\"", some "g1\ng2",
      some "w", some "t", some "Alta"⟩],
    impacts := "imp1\nimp2", regressionTestSuggestions := "sug1\nsug2",
    regressionGherkinTestCases := some [holaCase], errorMessage := "", networkCalls := 2 }

/-- The run inputs of the witnesses for the orchestrator claims. -/
def stage2FailInput : RunInput :=
  ⟨"https://jira.example.com/browse/P-1", "descripcion",
   .payload ⟨some [validarCase], some "imp", some "1. probar login"⟩,
   .transportError 500 none⟩

def stage2NonArrayInput : RunInput :=
  ⟨"https://jira.example.com/browse/P-1", "descripcion",
   .payload ⟨some [validarCase], some "imp", some "1. probar login"⟩,
   .payload .nonArray⟩

def skipStage2Input : RunInput :=
  ⟨"https://jira.example.com/browse/P-1", "descripcion",
   .payload ⟨some [validarCase], some "imp", some "   "⟩, .emptyEnvelope⟩

def blankLinkInput : RunInput :=
  ⟨"   ", "descripcion", .emptyEnvelope, .emptyEnvelope⟩

/-- The scenario invariant exactly as claimed: every accepted
scenario of either stage that is non-empty starts with `"Validar "`. -/
def scenarioValidarClaim : Prop :=
  ∀ inp : RunInput, ∀ tc : TestCase,
    (tc ∈ (handleAnalyze inp).testCases.getD []
      ∨ tc ∈ (handleAnalyze inp).regressionGherkinTestCases.getD []) →
    ∀ s, tc.scenario = some s → s ≠ "" → "Validar ".data.isPrefixOf s.data = true

/-- Membership is preserved by `sortInsert`. -/
theorem mem_sortInsert (a x : TestCase) (l : List TestCase) :
    x ∈ sortInsert a l ↔ x = a ∨ x ∈ l := by
  induction l with
  | nil => simp [sortInsert]
  | cons b rest ih =>
    by_cases h : sortCompare a b ≤ 0
    · simp [sortInsert, h]
    · simp [sortInsert, h, ih]; tauto

/-- Membership is preserved by `sortTestCasesByPriority`. -/
theorem mem_sortTestCasesByPriority (x : TestCase) (l : List TestCase) :
    x ∈ sortTestCasesByPriority l ↔ x ∈ l := by
  induction l with
  | nil => simp [sortTestCasesByPriority]
  | cons c rest ih => simp [sortTestCasesByPriority, mem_sortInsert, ih]

/-! ## Round-trip lemmas -/

theorem flattenNl_escQuotes (t : List Char) :
    flattenNl (escQuotes t) = escQuotes (flattenNl t) := by
  induction t with
  | nil => rfl
  | cons c rest ih =>
    by_cases hq : c = '"'
    · subst hq; simp [escQuotes, flattenNl, ih]
    · by_cases hn : c = '\n'
      · subst hn; simp [escQuotes, flattenNl, ih]
      · simp [escQuotes, flattenNl, hq, hn, ih]

theorem mem_flattenNl {c : Char} {t : List Char} (h : c ∈ flattenNl t) :
    c ∈ t ∨ c = ' ' := by
  induction t with
  | nil => simp [flattenNl] at h
  | cons d rest ih =>
    by_cases hn : d = '\n'
    · rw [show flattenNl (d :: rest) = ' ' :: flattenNl rest by simp [flattenNl, hn]] at h
      rcases List.mem_cons.mp h with h | h
      · right; exact h
      · rcases ih h with h2 | h2
        · left; exact List.mem_cons_of_mem d h2
        · right; exact h2
    · rw [show flattenNl (d :: rest) = d :: flattenNl rest by simp [flattenNl, hn]] at h
      rcases List.mem_cons.mp h with h | h
      · left; exact h ▸ List.mem_cons_self d rest
      · rcases ih h with h2 | h2
        · left; exact List.mem_cons_of_mem d h2
        · right; exact h2

theorem nl_not_mem_flattenNl (t : List Char) : '\n' ∉ flattenNl t := by
  induction t with
  | nil => simp [flattenNl]
  | cons d rest ih =>
    intro h
    by_cases hn : d = '\n'
    · rw [show flattenNl (d :: rest) = ' ' :: flattenNl rest by simp [flattenNl, hn]] at h
      rcases List.mem_cons.mp h with h | h
      · exact absurd h (by decide)
      · exact ih h
    · rw [show flattenNl (d :: rest) = d :: flattenNl rest by simp [flattenNl, hn]] at h
      rcases List.mem_cons.mp h with h | h
      · exact hn h.symm
      · exact ih h

theorem escQuotes_of_not_mem {t : List Char} (h : '"' ∉ t) : escQuotes t = t := by
  induction t with
  | nil => rfl
  | cons d rest ih =>
    have hd : d ≠ '"' := fun e => h (by simp [e])
    have hr : '"' ∉ rest := fun m => h (by simp [m])
    simp [escQuotes, hd, ih hr]

theorem mem_escQuotes_self {c : Char} {t : List Char} (h : c ∈ t) : c ∈ escQuotes t := by
  induction t with
  | nil => simp at h
  | cons d rest ih =>
    rcases List.mem_cons.mp h with h | h
    · by_cases hd : d = '"'
      · rw [show escQuotes (d :: rest) = '"' :: '"' :: escQuotes rest by simp [escQuotes, hd]]
        simp [h, hd]
      · rw [show escQuotes (d :: rest) = d :: escQuotes rest by simp [escQuotes, hd]]
        simp [h]
    · by_cases hd : d = '"'
      · rw [show escQuotes (d :: rest) = '"' :: '"' :: escQuotes rest by simp [escQuotes, hd]]
        simp [ih h]
      · rw [show escQuotes (d :: rest) = d :: escQuotes rest by simp [escQuotes, hd]]
        simp [ih h]

theorem mem_flattenNl_of_mem {c : Char} {t : List Char} (h : c ∈ t) (hc : c ≠ '\n') :
    c ∈ flattenNl t := by
  induction t with
  | nil => simp at h
  | cons d rest ih =>
    rcases List.mem_cons.mp h with h | h
    · by_cases hd : d = '\n'
      · exact absurd (h.trans hd) hc
      · rw [show flattenNl (d :: rest) = d :: flattenNl rest by simp [flattenNl, hd]]
        simp [h]
    · by_cases hd : d = '\n'
      · rw [show flattenNl (d :: rest) = ' ' :: flattenNl rest by simp [flattenNl, hd]]
        simp [ih h]
      · rw [show flattenNl (d :: rest) = d :: flattenNl rest by simp [flattenNl, hd]]
        simp [ih h]

/-- When the escaped text contains no quote, the original contained none and
the escaping step is just the newline flattening. -/
theorem escaped_no_quote {t : List Char} (h : '"' ∉ flattenNl (escQuotes t)) :
    '"' ∉ t ∧ flattenNl (escQuotes t) = flattenNl t := by
  have hq : '"' ∉ t := by
    intro m
    exact h (by
      rw [flattenNl_escQuotes]
      exact mem_escQuotes_self (mem_flattenNl_of_mem m (by decide)))
  exact ⟨hq, by rw [escQuotes_of_not_mem hq]⟩

/-- Unquoted characters are consumed verbatim into the accumulator. -/
theorem readFields_run {f : List Char} (hf : ∀ c ∈ f, c ≠ ',' ∧ c ≠ '"') :
    ∀ acc cs, readFields false acc (f ++ cs) = readFields false (f.reverse ++ acc) cs := by
  induction f with
  | nil => intro acc cs; simp
  | cons c rest ih =>
    intro acc cs
    have hc := hf c (by simp)
    have hrest : ∀ d ∈ rest, d ≠ ',' ∧ d ≠ '"' := fun d hd => hf d (by simp [hd])
    rw [List.cons_append,
      show readFields false acc (c :: (rest ++ cs))
          = readFields false (c :: acc) (rest ++ cs) by
        rw [readFields.eq_def]; simp [hc.1, hc.2],
      ih hrest (c :: acc) cs]
    simp

/-- A quoted run of doubled-quote-escaped text, closed by a quote and a
comma, yields the unescaped text and continues with the next field. -/
theorem readFields_quoted_comma (w : List Char) :
    ∀ acc r, readFields true acc (escQuotes w ++ '"' :: ',' :: r)
      = String.mk (acc.reverse ++ w) :: readFields false [] r := by
  induction w with
  | nil => intro acc r; simp [escQuotes, readFields]
  | cons c rest ih =>
    intro acc r
    by_cases hc : c = '"'
    · rw [show escQuotes (c :: rest) = '"' :: '"' :: escQuotes rest by simp [escQuotes, hc],
        List.cons_append, List.cons_append,
        show readFields true acc ('"' :: ('"' :: (escQuotes rest ++ '"' :: ',' :: r)))
            = readFields true ('"' :: acc) (escQuotes rest ++ '"' :: ',' :: r) by
          rw [readFields.eq_def]; simp,
        ih ('"' :: acc) r]
      simp [hc]
    · rw [show escQuotes (c :: rest) = c :: escQuotes rest by simp [escQuotes, hc],
        List.cons_append,
        show readFields true acc (c :: (escQuotes rest ++ '"' :: ',' :: r))
            = readFields true (c :: acc) (escQuotes rest ++ '"' :: ',' :: r) by
          rw [readFields.eq_def]; simp [hc],
        ih (c :: acc) r]
      simp

/-- A quoted run of doubled-quote-escaped text closed by the final quote of
the line yields the unescaped text as the last field. -/
theorem readFields_quoted_end (w : List Char) :
    ∀ acc, readFields true acc (escQuotes w ++ ['"'])
      = [String.mk (acc.reverse ++ w)] := by
  induction w with
  | nil => intro acc; simp [escQuotes, readFields]
  | cons c rest ih =>
    intro acc
    by_cases hc : c = '"'
    · rw [show escQuotes (c :: rest) = '"' :: '"' :: escQuotes rest by simp [escQuotes, hc],
        List.cons_append, List.cons_append,
        show readFields true acc ('"' :: ('"' :: (escQuotes rest ++ ['"'])))
            = readFields true ('"' :: acc) (escQuotes rest ++ ['"']) by
          rw [readFields.eq_def]; simp,
        ih ('"' :: acc)]
      simp [hc]
    · rw [show escQuotes (c :: rest) = c :: escQuotes rest by simp [escQuotes, hc],
        List.cons_append,
        show readFields true acc (c :: (escQuotes rest ++ ['"']))
            = readFields true (c :: acc) (escQuotes rest ++ ['"']) by
          rw [readFields.eq_def]; simp [hc],
        ih (c :: acc)]
      simp

theorem rowCells_eq_map (tc : TestCase) : rowCells tc = (caseFields tc).map escCell := rfl

theorem expectedRow_eq_map (tc : TestCase) :
    expectedRow tc = (caseFields tc).map flattenedValue := rfl

/-- Reading one escaped cell followed by a comma recovers the flattened
value and continues with the rest of the line. -/
theorem readFields_cell (v : Option String) (r : List Char) :
    readFields false [] (escCell v ++ ',' :: r)
      = flattenedValue v :: readFields false [] r := by
  match v with
  | none =>
    show readFields false [] (',' :: r) = _
    rw [readFields.eq_def]
    simp [flattenedValue]
  | some s =>
    show readFields false [] (escapeCsvChars s.data ++ ',' :: r) = _
    rw [escapeCsvChars]
    by_cases hc : (flattenNl (escQuotes s.data)).contains ','
        || (flattenNl (escQuotes s.data)).contains '"'
    · rw [if_pos hc]
      have : ('"' :: (flattenNl (escQuotes s.data) ++ ['"'])) ++ ',' :: r
          = '"' :: (escQuotes (flattenNl s.data) ++ '"' :: ',' :: r) := by
        rw [flattenNl_escQuotes]; simp
      rw [this,
        show readFields false [] ('"' :: (escQuotes (flattenNl s.data) ++ '"' :: ',' :: r))
            = readFields true [] (escQuotes (flattenNl s.data) ++ '"' :: ',' :: r) by
          rw [readFields.eq_def]; simp,
        readFields_quoted_comma]
      simp [flattenedValue]
    · rw [if_neg hc]
      have hcm : ',' ∉ flattenNl (escQuotes s.data) := by
        intro m; exact hc (by simp [m])
      have hqm : '"' ∉ flattenNl (escQuotes s.data) := by
        intro m; exact hc (by simp [m])
      obtain ⟨-, heq⟩ := escaped_no_quote hqm
      have hall : ∀ c ∈ flattenNl (escQuotes s.data), c ≠ ',' ∧ c ≠ '"' :=
        fun c hcmem => ⟨fun e => hcm (e ▸ hcmem), fun e => hqm (e ▸ hcmem)⟩
      rw [readFields_run hall, readFields.eq_def]
      simp [flattenedValue, heq]

/-- Reading one escaped cell at the end of the line recovers the flattened
value as the final field. -/
theorem readFields_cell_last (v : Option String) :
    readFields false [] (escCell v) = [flattenedValue v] := by
  match v with
  | none =>
    show readFields false [] [] = _
    rw [readFields.eq_def]
    simp [flattenedValue]
  | some s =>
    show readFields false [] (escapeCsvChars s.data) = _
    rw [escapeCsvChars]
    by_cases hc : (flattenNl (escQuotes s.data)).contains ','
        || (flattenNl (escQuotes s.data)).contains '"'
    · rw [if_pos hc]
      have : '"' :: (flattenNl (escQuotes s.data) ++ ['"'])
          = '"' :: (escQuotes (flattenNl s.data) ++ ['"']) := by
        rw [flattenNl_escQuotes]
      rw [this,
        show readFields false [] ('"' :: (escQuotes (flattenNl s.data) ++ ['"']))
            = readFields true [] (escQuotes (flattenNl s.data) ++ ['"']) by
          rw [readFields.eq_def]; simp,
        readFields_quoted_end]
      simp [flattenedValue]
    · rw [if_neg hc]
      have hcm : ',' ∉ flattenNl (escQuotes s.data) := by
        intro m; exact hc (by simp [m])
      have hqm : '"' ∉ flattenNl (escQuotes s.data) := by
        intro m; exact hc (by simp [m])
      obtain ⟨-, heq⟩ := escaped_no_quote hqm
      have hall : ∀ c ∈ flattenNl (escQuotes s.data), c ≠ ',' ∧ c ≠ '"' :=
        fun c hcmem => ⟨fun e => hcm (e ▸ hcmem), fun e => hqm (e ▸ hcmem)⟩
      have := readFields_run hall [] []
      rw [List.append_nil] at this
      rw [this, readFields.eq_def]
      simp [flattenedValue, heq]

/-- One whole exported row splits back into the flattened field values. -/
theorem readRecord_cells : ∀ (vs : List (Option String)), vs ≠ [] →
    readRecord (joinCommaChars (vs.map escCell)) = vs.map flattenedValue := by
  intro vs
  induction vs with
  | nil => intro h; exact absurd rfl h
  | cons v rest ih =>
    intro _
    match rest with
    | [] =>
      show readRecord (joinCommaChars [escCell v]) = _
      rw [show joinCommaChars [escCell v] = escCell v from rfl]
      exact readFields_cell_last v
    | v2 :: rest2 =>
      rw [show joinCommaChars ((v :: v2 :: rest2).map escCell)
          = escCell v ++ ',' :: joinCommaChars ((v2 :: rest2).map escCell) from rfl]
      show readFields false [] _ = _
      rw [readFields_cell v]
      have := ih (by simp)
      rw [show readRecord (joinCommaChars ((v2 :: rest2).map escCell))
          = readFields false [] (joinCommaChars ((v2 :: rest2).map escCell)) from rfl] at this
      rw [this]
      rfl

/-- One row of a scenario table splits back into `expectedRow`. -/
theorem readRecord_row (tc : TestCase) :
    readRecord (joinCommaChars (rowCells tc)) = expectedRow tc := by
  rw [rowCells_eq_map, expectedRow_eq_map]
  exact readRecord_cells (caseFields tc) (by simp [caseFields])

theorem lineJoin_append (a b : List (List Char)) :
    lineJoin (a ++ b) = lineJoin a ++ lineJoin b := by
  simp [lineJoin]

/-- The export string is exactly its lines joined with newlines. -/
theorem tableSectionChars_eq_lineJoin (o : Option (List TestCase)) (m : String) :
    tableSectionChars o m = lineJoin (tableSectionLines o m) := by
  match o with
  | none => simp [tableSectionChars, tableSectionLines, lineJoin]
  | some l =>
    by_cases hl : 0 < l.length
    · simp only [tableSectionChars, tableSectionLines, hl, if_pos]
      rw [lineJoin_append]
      congr 1
      · simp [lineJoin, sectionLeadChars]
      · simp only [addTestCasesToCsvChars, lineJoin]
        congr 1
        rw [List.map_map]
        apply List.map_congr_left
        intro tc _
        simp [rowChars]
    · simp [tableSectionChars, tableSectionLines, hl, lineJoin]

theorem textSectionChars_eq_lineJoin (t m : String) :
    textSectionChars t m = lineJoin (textSectionLines t m) := by
  by_cases ht : t = ""
  · simp [textSectionChars, textSectionLines, ht, lineJoin]
  · simp [textSectionChars, textSectionLines, ht, lineJoin, sectionLeadChars, quotedBlockChars]

/-- The export string is exactly its lines joined with newlines. -/
theorem exportChars_eq_lineJoin (st : AppState) :
    exportChars st = lineJoin (docLines st) := by
  rw [exportChars, docLines, lineJoin_append, lineJoin_append, lineJoin_append,
    lineJoin_append, tableSectionChars_eq_lineJoin, tableSectionChars_eq_lineJoin,
    textSectionChars_eq_lineJoin, textSectionChars_eq_lineJoin,
    show lineJoin [headerContentChars] = headerRowChars by
      simp [lineJoin, headerRowChars, headerContentChars]]

/-- Splitting consumes one newline-free line at a time. -/
theorem splitChar_line {l : List Char} (h : '\n' ∉ l) (cs : List Char) :
    splitChar '\n' (l ++ '\n' :: cs) = l :: splitChar '\n' cs := by
  induction l with
  | nil => simp [splitChar]
  | cons c rest ih =>
    have hc : c ≠ '\n' := fun e => h (by simp [e])
    have hr : '\n' ∉ rest := fun m => h (by simp [m])
    rw [List.cons_append, splitChar, if_neg hc, ih hr]

/-- Splitting a newline-terminated line join recovers the lines plus the
empty trailing field. -/
theorem splitChar_lineJoin {lines : List (List Char)} (h : ∀ l ∈ lines, '\n' ∉ l) :
    splitChar '\n' (lineJoin lines) = lines ++ [[]] := by
  induction lines with
  | nil => simp [lineJoin, splitChar]
  | cons l rest ih =>
    have hl : '\n' ∉ l := h l (by simp)
    have hr : ∀ x ∈ rest, '\n' ∉ x := fun x hx => h x (by simp [hx])
    rw [show lineJoin (l :: rest) = l ++ '\n' :: lineJoin rest by simp [lineJoin],
      splitChar_line hl, ih hr, List.cons_append]

theorem nl_not_mem_escapeCsvChars (t : List Char) : '\n' ∉ escapeCsvChars t := by
  rw [escapeCsvChars]
  by_cases hc : (flattenNl (escQuotes t)).contains ',' || (flattenNl (escQuotes t)).contains '"'
  · rw [if_pos hc]
    intro m
    rcases List.mem_cons.mp m with m | m
    · exact absurd m (by decide)
    · rcases List.mem_append.mp m with m | m
      · exact nl_not_mem_flattenNl _ m
      · simp at m
  · rw [if_neg hc]
    exact nl_not_mem_flattenNl _

theorem nl_not_mem_escCell (v : Option String) : '\n' ∉ escCell v := by
  match v with
  | none => simp [escCell, escapeCsv, jsOfField]
  | some s => exact nl_not_mem_escapeCsvChars s.data

theorem nl_not_mem_joinCommaChars {cells : List (List Char)}
    (h : ∀ c ∈ cells, '\n' ∉ c) : '\n' ∉ joinCommaChars cells := by
  induction cells with
  | nil => simp [joinCommaChars]
  | cons f rest ih =>
    match rest with
    | [] => exact h f (by simp)
    | g :: rest2 =>
      rw [show joinCommaChars (f :: g :: rest2) = f ++ ',' :: joinCommaChars (g :: rest2)
        from rfl]
      intro m
      rcases List.mem_append.mp m with m | m
      · exact h f (by simp) m
      · rcases List.mem_cons.mp m with m | m
        · exact absurd m (by decide)
        · exact ih (fun c hc => h c (by simp [List.mem_cons.mp hc])) m

theorem nl_not_mem_rowLine (tc : TestCase) : '\n' ∉ joinCommaChars (rowCells tc) := by
  apply nl_not_mem_joinCommaChars
  intro c hc
  rw [rowCells_eq_map] at hc
  obtain ⟨v, -, rfl⟩ := List.mem_map.mp hc
  exact nl_not_mem_escCell v

theorem nl_not_mem_quoteWrapChars {s : List Char} (h : '\n' ∉ s) :
    '\n' ∉ quoteWrapChars s := by
  intro m
  rcases List.mem_cons.mp m with m | m
  · exact absurd m (by decide)
  · rcases List.mem_append.mp m with m | m
    · exact h m
    · simp at m

theorem tableSectionLines_good {o : Option (List TestCase)} {m : String}
    (hm : '\n' ∉ m.data) : ∀ l ∈ tableSectionLines o m, '\n' ∉ l := by
  intro l hl
  rw [tableSectionLines.eq_def] at hl
  cases o with
  | none => simp at hl
  | some cases0 =>
    simp only at hl
    by_cases hc : 0 < cases0.length
    · rw [if_pos hc] at hl
      rcases List.mem_append.mp hl with hl | hl
      · rcases List.mem_cons.mp hl with hl | hl
        · subst hl; simp
        · rcases List.mem_cons.mp hl with hl | hl
          · subst hl; exact nl_not_mem_quoteWrapChars hm
          · simp at hl
      · obtain ⟨tc, -, rfl⟩ := List.mem_map.mp hl
        exact nl_not_mem_rowLine tc
    · rw [if_neg hc] at hl; simp at hl

theorem textSectionLines_good {t m : String} (hm : '\n' ∉ m.data) :
    ∀ l ∈ textSectionLines t m, '\n' ∉ l := by
  intro l hl
  rw [textSectionLines] at hl
  by_cases ht : t = ""
  · simp [ht] at hl
  · rw [if_pos (by simpa using ht)] at hl
    rcases List.mem_cons.mp hl with hl | hl
    · subst hl; simp
    · rcases List.mem_cons.mp hl with hl | hl
      · subst hl; exact nl_not_mem_quoteWrapChars hm
      · rcases List.mem_cons.mp hl with hl | hl
        · subst hl
          exact nl_not_mem_quoteWrapChars (nl_not_mem_escapeCsvChars _)
        · simp at hl

/-- No line of the export contains a newline. -/
theorem docLines_good (st : AppState) : ∀ l ∈ docLines st, '\n' ∉ l := by
  intro l hl
  rw [docLines] at hl
  rcases List.mem_append.mp hl with hl | hl
  · rcases List.mem_append.mp hl with hl | hl
    · rcases List.mem_append.mp hl with hl | hl
      · rcases List.mem_append.mp hl with hl | hl
        · rcases List.mem_cons.mp hl with hl | hl
          · subst hl; decide
          · simp at hl
        · exact tableSectionLines_good (by decide) l hl
      · exact tableSectionLines_good (by decide) l hl
    · exact textSectionLines_good (by decide) l hl
  · exact textSectionLines_good (by decide) l hl

/-- An empty line splits into one empty field. -/
theorem readRecord_nil : readRecord [] = [""] := rfl

/-- A fully quoted quote-free line splits into that single field. -/
theorem readRecord_quoteWrap {s : List Char} (h : '"' ∉ s) :
    readRecord (quoteWrapChars s) = [String.mk s] := by
  rw [readRecord, quoteWrapChars,
    show readFields false [] ('"' :: (s ++ ['"'])) = readFields true [] (s ++ ['"']) by
      rw [readFields.eq_def]; simp,
    show s ++ ['"'] = escQuotes s ++ ['"'] by rw [escQuotes_of_not_mem h],
    readFields_quoted_end]
  simp

/-- One scenario-table section of an export splits back into its expected
records. -/
theorem tableSection_records {o : Option (List TestCase)} {m : String}
    (hm : '"' ∉ m.data) :
    (tableSectionLines o m).map readRecord = expectedTableRecords o m := by
  rw [tableSectionLines.eq_def, expectedTableRecords.eq_def]
  cases o with
  | none => simp
  | some cases0 =>
    simp only
    by_cases hc : 0 < cases0.length
    · rw [if_pos hc, if_pos hc, List.map_append, List.map_map]
      congr 1
      · simp [readRecord_nil, readRecord_quoteWrap hm]
      · apply List.map_congr_left
        intro tc _
        exact readRecord_row tc
    · rw [if_neg hc, if_neg hc]; simp

/-- One free-text section of an export splits back into its expected
records, provided the text contains neither comma nor quote. -/
theorem textSection_records {t m : String} (hm : '"' ∉ m.data)
    (htc : ',' ∉ t.data) (htq : '"' ∉ t.data) :
    (textSectionLines t m).map readRecord = expectedTextRecords t m := by
  rw [textSectionLines, expectedTextRecords]
  by_cases ht : t = ""
  · simp [ht]
  · rw [if_pos (by simpa using ht), if_pos (by simpa using ht)]
    have hesc : (escapeCsv (.str t)).data = flattenNl t.data := by
      have hq : '"' ∉ flattenNl (escQuotes t.data) := by
        rw [escQuotes_of_not_mem htq]
        intro mm
        rcases mem_flattenNl mm with mm | mm
        · exact htq mm
        · exact absurd mm (by decide)
      have hcm : ',' ∉ flattenNl (escQuotes t.data) := by
        rw [escQuotes_of_not_mem htq]
        intro mm
        rcases mem_flattenNl mm with mm | mm
        · exact htc mm
        · exact absurd mm (by decide)
      show (String.mk (escapeCsvChars t.data)).data = _
      rw [escapeCsvChars,
        if_neg (by
          intro hb
          rcases Bool.or_eq_true_iff.mp hb with hb | hb
          · exact hcm (by simpa using hb)
          · exact hq (by simpa using hb))]
      rw [escQuotes_of_not_mem htq]
    have hqflat : '"' ∉ flattenNl t.data := by
      intro mm
      rcases mem_flattenNl mm with mm | mm
      · exact htq mm
      · exact absurd mm (by decide)
    simp only [List.map_cons, List.map_nil, readRecord_nil, readRecord_quoteWrap hm]
    rw [hesc, readRecord_quoteWrap hqflat]

/-- The header row splits back into the seven header labels. -/
theorem readRecord_headerRow : readRecord headerContentChars = csvHeaders := by decide

/-- The general round-trip: when neither free-text block contains a comma or
a double quote, splitting the export recovers every field of every section
(scenario fields modulo the newline flattening, unconditionally). -/
theorem csvRoundTrip_of_blocks_plain (st : AppState)
    (hic : ',' ∉ st.impacts.data) (hiq : '"' ∉ st.impacts.data)
    (hsc : ',' ∉ st.regressionTestSuggestions.data)
    (hsq : '"' ∉ st.regressionTestSuggestions.data) :
    CsvRoundTrip st := by
  rw [CsvRoundTrip, parseDocument,
    show (formatContentForCsvExport st).data = exportChars st from rfl,
    exportChars_eq_lineJoin, splitChar_lineJoin (docLines_good st),
    List.map_append, docLines, expectedRecords]
  rw [List.map_append, List.map_append, List.map_append, List.map_append,
    List.map_cons, List.map_nil]
  rw [show List.map readRecord [([] : List Char)] = [[""]] from rfl,
    tableSection_records (by decide), tableSection_records (by decide),
    textSection_records (by decide) hic hiq,
    textSection_records (by decide) hsc hsq]
  simp [readRecord_headerRow]

/-- A run whose first call parsed reaches the stage-1 state and then either
stops there or enters stage 2 on it. -/
theorem handleAnalyze_payload (inp : RunInput) (p : Stage1Payload)
    (hl : ¬ jsTrim inp.jiraLink = "") (hc : ¬ jsTrim inp.jiraContent = "")
    (h1 : inp.stage1 = .payload p) :
    handleAnalyze inp =
      if stage2Triggered p then runStage2 { stage1State p with networkCalls := 2 } inp.stage2
      else stage1State p := by
  rw [handleAnalyze, if_neg hl, if_neg hc, h1]
  rfl

/-- Stage 2 never writes the stage-1 result fields. -/
theorem runStage2_preserves (s : AppState) (o : CallOutcome Stage2Payload) :
    (runStage2 s o).testCases = s.testCases
    ∧ (runStage2 s o).impacts = s.impacts
    ∧ (runStage2 s o).regressionTestSuggestions = s.regressionTestSuggestions
    ∧ (runStage2 s o).networkCalls = s.networkCalls := by
  match o with
  | .transportError status message => exact ⟨rfl, rfl, rfl, rfl⟩
  | .emptyEnvelope => exact ⟨rfl, rfl, rfl, rfl⟩
  | .jsonError e r => exact ⟨rfl, rfl, rfl, rfl⟩
  | .payload .nonArray => exact ⟨rfl, rfl, rfl, rfl⟩
  | .payload (.arr l) => exact ⟨rfl, rfl, rfl, rfl⟩

theorem generalErrorMessage_ne_empty (inner : String) : generalErrorMessage inner ≠ "" := by
  rw [generalErrorMessage]
  intro h
  have h2 := congrArg String.data h
  rw [String.data_append, String.data_append] at h2
  simp at h2

theorem secondJsonErrorMessage_ne_empty (e r : String) :
    secondJsonErrorMessage e r ≠ "" := by
  rw [secondJsonErrorMessage]
  intro h
  have h2 := congrArg String.data h
  rw [String.data_append, String.data_append, String.data_append] at h2
  simp at h2

theorem findIdx?_none_of_forall {p : String → Bool} :
    ∀ (l : List String) (i : Nat), (∀ x ∈ l, p x = false) → List.findIdx? p l i = none := by
  intro l
  induction l with
  | nil => intro i _; rfl
  | cons x xs ih =>
    intro i h
    rw [List.findIdx?_cons, if_neg (by simp [h x (by simp)])]
    exact ih (i + 1) (fun y hy => h y (by simp [hy]))

theorem findIdx?_first_marker {p : String → Bool} :
    ∀ (pre : List String) (m : String) (rest : List String) (i : Nat),
      (∀ x ∈ pre, p x = false) → p m = true →
      List.findIdx? p (pre ++ m :: rest) i = some (i + pre.length) := by
  intro pre
  induction pre with
  | nil =>
    intro m rest i _ hm
    rw [List.nil_append, List.findIdx?_cons, if_pos hm]
    simp
  | cons x xs ih =>
    intro m rest i h hm
    rw [List.cons_append, List.findIdx?_cons, if_neg (by simp [h x (by simp)])]
    rw [ih m rest (i + 1) (fun y hy => h y (by simp [hy])) hm]
    congr 1
    simp
    omega

/-! ## The claims -/

/-- C2: a run whose reference link or description is blank (empty or
white-space-only) stops with the field's own validation message, issues no
network call and populates no result field; the two messages are distinct. -/
theorem C2_blank_inputs_stop_without_network (inp : RunInput)
    (h : jsTrim inp.jiraLink = "" ∨ jsTrim inp.jiraContent = "") :
    (handleAnalyze inp).errorMessage =
      (if jsTrim inp.jiraLink = "" then linkRequiredMessage else contentRequiredMessage)
    ∧ (handleAnalyze inp).networkCalls = 0
    ∧ (handleAnalyze inp).testCases = none
    ∧ (handleAnalyze inp).impacts = ""
    ∧ (handleAnalyze inp).regressionTestSuggestions = ""
    ∧ (handleAnalyze inp).regressionGherkinTestCases = none
    ∧ linkRequiredMessage ≠ contentRequiredMessage := by
  by_cases hl : jsTrim inp.jiraLink = ""
  · rw [handleAnalyze, if_pos hl, if_pos hl]
    exact ⟨rfl, rfl, rfl, rfl, rfl, rfl, by decide⟩
  · rcases h with h | h
    · exact absurd h hl
    · rw [handleAnalyze, if_neg hl, if_pos h, if_neg hl]
      exact ⟨rfl, rfl, rfl, rfl, rfl, rfl, by decide⟩

/-- Witness for C2 at a white-space-only link. -/
theorem C2_blank_inputs_stop_without_network_witness :
    jsTrim blankLinkInput.jiraLink = ""
    ∧ (handleAnalyze blankLinkInput).errorMessage = linkRequiredMessage
    ∧ (handleAnalyze blankLinkInput).networkCalls = 0 := by
  have h := C2_blank_inputs_stop_without_network blankLinkInput (Or.inl (by decide))
  exact ⟨by decide, by rw [h.1]; decide, h.2.1⟩

/-- C3: a stage-1 success whose `regressionTests` text is absent, empty or
white-space-only skips stage 2 entirely: one network call, no error, no
regression scenarios, while the primary results stand. -/
theorem C3_blank_suggestions_skip_stage2 (inp : RunInput) (p : Stage1Payload)
    (hl : ¬ jsTrim inp.jiraLink = "") (hc : ¬ jsTrim inp.jiraContent = "")
    (h1 : inp.stage1 = .payload p)
    (hr : p.regressionTests = none ∨ ∃ s, p.regressionTests = some s ∧ jsTrim s = "") :
    (handleAnalyze inp).networkCalls = 1
    ∧ (handleAnalyze inp).errorMessage = ""
    ∧ (handleAnalyze inp).regressionGherkinTestCases = none
    ∧ (handleAnalyze inp).testCases = some (sortTestCasesByPriority (p.testCases.getD [])) := by
  have htrig : stage2Triggered p = false := by
    rw [stage2Triggered.eq_def]
    rcases hr with h | ⟨s, hs, ht⟩
    · rw [h]
    · rw [hs]; simp [ht]
  rw [handleAnalyze_payload inp p hl hc h1, htrig]
  exact ⟨rfl, rfl, rfl, rfl⟩

/-- Witness for C3 at a white-space-only suggestions text. -/
theorem C3_blank_suggestions_skip_stage2_witness :
    (handleAnalyze skipStage2Input).networkCalls = 1
    ∧ (handleAnalyze skipStage2Input).errorMessage = ""
    ∧ (handleAnalyze skipStage2Input).regressionGherkinTestCases = none := by
  have h := C3_blank_suggestions_skip_stage2 skipStage2Input
    ⟨some [validarCase], some "imp", some "   "⟩ (by decide) (by decide) rfl
    (Or.inr ⟨"   ", rfl, by decide⟩)
  exact ⟨h.1, h.2.1, h.2.2.1⟩

/-- C1: when stage 1 parsed and stage 2 fails at the transport level, with a
missing text payload, or with an unparseable payload, the run reports a
non-empty error while every stage-1 result stays exactly as stage 1 set it,
and no regression scenarios appear. -/
theorem C1_stage2_failure_preserves_stage1 (inp : RunInput) (p : Stage1Payload)
    (hl : ¬ jsTrim inp.jiraLink = "") (hc : ¬ jsTrim inp.jiraContent = "")
    (h1 : inp.stage1 = .payload p) (htrig : stage2Triggered p = true)
    (hf : (∃ status msg, inp.stage2 = .transportError status msg)
      ∨ inp.stage2 = .emptyEnvelope
      ∨ (∃ emsg raw, inp.stage2 = .jsonError emsg raw)) :
    (handleAnalyze inp).errorMessage ≠ ""
    ∧ (handleAnalyze inp).testCases = some (sortTestCasesByPriority (p.testCases.getD []))
    ∧ (handleAnalyze inp).impacts = p.impacts.getD ""
    ∧ (handleAnalyze inp).regressionTestSuggestions = p.regressionTests.getD ""
    ∧ (handleAnalyze inp).regressionGherkinTestCases = none := by
  rw [handleAnalyze_payload inp p hl hc h1, htrig, if_pos rfl]
  rcases hf with ⟨status, msg, h2⟩ | h2 | ⟨emsg, raw, h2⟩ <;> rw [h2]
  · exact ⟨generalErrorMessage_ne_empty _, rfl, rfl, rfl, rfl⟩
  · exact ⟨show emptySecondResponseMessage ≠ "" by decide, rfl, rfl, rfl, rfl⟩
  · exact ⟨secondJsonErrorMessage_ne_empty emsg raw, rfl, rfl, rfl, rfl⟩

/-- Witness for C1 at a stage-2 HTTP 500. -/
theorem C1_stage2_failure_preserves_stage1_witness :
    (handleAnalyze stage2FailInput).errorMessage ≠ ""
    ∧ (handleAnalyze stage2FailInput).testCases
        = some (sortTestCasesByPriority [validarCase])
    ∧ (handleAnalyze stage2FailInput).impacts = "imp"
    ∧ (handleAnalyze stage2FailInput).regressionGherkinTestCases = none := by
  have h := C1_stage2_failure_preserves_stage1 stage2FailInput
    ⟨some [validarCase], some "imp", some "1. probar login"⟩ (by decide) (by decide) rfl
    (by decide) (Or.inl ⟨500, none, rfl⟩)
  exact ⟨h.1, h.2.1, h.2.2.1, h.2.2.2.2⟩

/-- C4: when stage 2 succeeds at the transport level but the parsed payload
is not an array, the run reports the schema-violation message and leaves the
regression scenarios unpopulated. -/
theorem C4_nonarray_stage2_reports_schema_error (inp : RunInput) (p : Stage1Payload)
    (hl : ¬ jsTrim inp.jiraLink = "") (hc : ¬ jsTrim inp.jiraContent = "")
    (h1 : inp.stage1 = .payload p) (htrig : stage2Triggered p = true)
    (h2 : inp.stage2 = .payload .nonArray) :
    (handleAnalyze inp).errorMessage = nonArrayMessage
    ∧ (handleAnalyze inp).regressionGherkinTestCases = none := by
  rw [handleAnalyze_payload inp p hl hc h1, htrig, if_pos rfl, h2]
  exact ⟨rfl, rfl⟩

/-- Witness for C4. -/
theorem C4_nonarray_stage2_reports_schema_error_witness :
    (handleAnalyze stage2NonArrayInput).errorMessage = nonArrayMessage
    ∧ (handleAnalyze stage2NonArrayInput).regressionGherkinTestCases = none :=
  C4_nonarray_stage2_reports_schema_error stage2NonArrayInput
    ⟨some [validarCase], some "imp", some "1. probar login"⟩ (by decide) (by decide) rfl
    (by decide) rfl

/-- C5 (code behaviour at the failing input): the lookup does return the
documented ranks for the known labels, the empty label and an ordinary
unknown label, but a label that names an `Object.prototype` property — here
`"constructor"` — resolves to the inherited truthy property instead of
falling back to rank 4. -/
theorem C5_priority_lookup_eval :
    priorityLookupValue "Alta" = .num 1 ∧ priorityLookupValue "High" = .num 1
    ∧ priorityLookupValue "Media" = .num 2 ∧ priorityLookupValue "Medium" = .num 2
    ∧ priorityLookupValue "Baja" = .num 3 ∧ priorityLookupValue "Low" = .num 3
    ∧ priorityLookupValue "" = .num 4
    ∧ priorityLookupValue "Crítica" = .num 4
    ∧ priorityLookupValue "undefined" = .num 4
    ∧ priorityLookupValue "constructor" = .protoValue
    ∧ priorityLookupValue "constructor" ≠ .num 4
    ∧ priorityLookupValue "toString" ≠ .num 4 := by
  decide

/-- C6 (code behaviour at the failing input): against a `"constructor"`
priority the comparator evaluates to a tie (`NaN` is coerced to `+0`), so
the sort leaves the record in front of an `"Alta"` record instead of
ordering it by rank 4 after rank 1. -/
theorem C6_sort_eval :
    sortCompare constructorCase altaCase = 0
    ∧ priorityLookupValue (jsPriorityKey altaCase.priority) = .num 1
    ∧ priorityLookupValue (jsPriorityKey constructorCase.priority) = .protoValue
    ∧ sortTestCasesByPriority [constructorCase, altaCase]
        = [constructorCase, altaCase] := by
  decide

/-- C7: identifier extraction.  A URL-constructor failure yields the empty
string; on a parsed pathname the segment after the first `browse`/`ticket`
marker is returned when it exists; with no marker, or with the marker as the
final segment, the last segment is returned; and the three documented
examples evaluate as stated. -/
theorem C7_getJiraIdFromUrl_spec :
    (∀ url, parseUrlPathname url = none → getJiraIdFromUrl url = "")
    ∧ (∀ url p pre m x post, parseUrlPathname url = some p →
        (splitChar '/' p.data).map String.mk = pre ++ m :: x :: post →
        (∀ s ∈ pre, isMarkerSegment s = false) → isMarkerSegment m = true →
        getJiraIdFromUrl url = x)
    ∧ (∀ url p, parseUrlPathname url = some p →
        (∀ s ∈ (splitChar '/' p.data).map String.mk, isMarkerSegment s = false) →
        getJiraIdFromUrl url = ((splitChar '/' p.data).map String.mk).getLastD "")
    ∧ (∀ url p pre m, parseUrlPathname url = some p →
        (splitChar '/' p.data).map String.mk = pre ++ [m] →
        (∀ s ∈ pre, isMarkerSegment s = false) → isMarkerSegment m = true →
        getJiraIdFromUrl url = m)
    ∧ getJiraIdFromUrl "https://h/browse/PROJ-123" = "PROJ-123"
    ∧ getJiraIdFromUrl "https://h/x/y" = "y"
    ∧ getJiraIdFromUrl "not a url" = "" := by
  refine ⟨?_, ?_, ?_, ?_, by decide, by decide, by decide⟩
  · intro url hp
    rw [getJiraIdFromUrl.eq_def, hp]
  · intro url p pre m x post hp hseg hpre hm
    rw [getJiraIdFromUrl.eq_def, hp]
    simp only [hseg]
    rw [findIdx?_first_marker pre m (x :: post) 0 hpre hm]
    simp only [Nat.zero_add]
    rw [if_pos (by simp [List.length_append])]
    rw [List.getD, List.get?_append_right (by omega)]
    simp
  · intro url p hp hpre
    rw [getJiraIdFromUrl.eq_def, hp]
    simp only
    rw [findIdx?_none_of_forall _ 0 hpre]
  · intro url p pre m hp hseg hpre hm
    rw [getJiraIdFromUrl.eq_def, hp]
    simp only [hseg]
    rw [findIdx?_first_marker pre m [] 0 hpre hm]
    simp only [Nat.zero_add]
    rw [if_neg (by simp [List.length_append])]
    simp [List.getLastD_concat]

/-- Witness for C7 applying the marker clause to the documented example. -/
theorem C7_getJiraIdFromUrl_spec_witness :
    getJiraIdFromUrl "https://h/browse/PROJ-123" = "PROJ-123"
    ∧ getJiraIdFromUrl "https://h/ticket/AB-9/extra" = "AB-9" := by
  refine ⟨C7_getJiraIdFromUrl_spec.2.2.2.2.1, ?_⟩
  exact C7_getJiraIdFromUrl_spec.2.1 "https://h/ticket/AB-9/extra" "/ticket/AB-9/extra"
    [""] "ticket" "AB-9" ["extra"] (by decide) (by decide) (by decide) (by decide)

/-- C8 (amended): the export round-trips for every state whose two free-text
blocks contain neither comma nor double quote — every scenario-table field
is recovered unconditionally, modulo the newline flattening — while the
doubly-quoted free-text blocks break the round trip otherwise. -/
theorem C8_export_roundTrip (st : AppState)
    (hic : ',' ∉ st.impacts.data) (hiq : '"' ∉ st.impacts.data)
    (hsc : ',' ∉ st.regressionTestSuggestions.data)
    (hsq : '"' ∉ st.regressionTestSuggestions.data) :
    CsvRoundTrip st :=
  csvRoundTrip_of_blocks_plain st hic hiq hsc hsq

/-- Witness for C8 on a state exercising commas, quotes and newlines inside
scenario fields. -/
theorem C8_export_roundTrip_witness : CsvRoundTrip roundTripState :=
  C8_export_roundTrip roundTripState (by decide) (by decide) (by decide) (by decide)

/-- Counterexample to C8 as stated: with impact notes `"a,b"` the exported
block line is `""a,b""`, which the documented splitting rules read back as
the empty field, not `"a,b"`. -/
theorem C8_export_roundTrip_counterexample : ¬ CsvRoundTrip commaImpactsState := by
  rw [CsvRoundTrip]
  decide

/-- Counterexample to C9 as stated: the orchestrator accepts a stage-1
response whose scenario is `"Hola mundo"`. -/
theorem C9_validar_counterexample : ¬ scenarioValidarClaim := by
  intro h
  have := h holaInput holaCase (Or.inl (by decide)) "Hola mundo" rfl (by decide)
  exact absurd this (by decide)

/-- C9 (amended): the `"Validar "` start is a prompt contract only — the
orchestrator accepts every test case of a parsed stage-1 payload into
`testCases` verbatim, with no constraint on its scenario text. -/
theorem C9_scenario_not_enforced (inp : RunInput) (p : Stage1Payload) (tc : TestCase)
    (hl : ¬ jsTrim inp.jiraLink = "") (hc : ¬ jsTrim inp.jiraContent = "")
    (h1 : inp.stage1 = .payload p) (hmem : tc ∈ p.testCases.getD []) :
    tc ∈ (handleAnalyze inp).testCases.getD [] := by
  have hfields : (handleAnalyze inp).testCases
      = some (sortTestCasesByPriority (p.testCases.getD [])) := by
    rw [handleAnalyze_payload inp p hl hc h1]
    by_cases ht : stage2Triggered p
    · rw [if_pos ht]
      exact (runStage2_preserves _ inp.stage2).1
    · rw [if_neg ht]; rfl
  rw [hfields]
  exact (mem_sortTestCasesByPriority tc _).mpr hmem

/-- Witness for C9's amended claim at the `"Hola mundo"` scenario. -/
theorem C9_scenario_not_enforced_witness :
    holaCase ∈ (handleAnalyze holaInput).testCases.getD []
    ∧ holaCase.scenario = some "Hola mundo"
    ∧ "Validar ".data.isPrefixOf "Hola mundo".data = false := by
  refine ⟨?_, rfl, by decide⟩
  exact C9_scenario_not_enforced holaInput ⟨some [holaCase], some "imp", none⟩ holaCase
    (by decide) (by decide) rfl (by decide)

/-- C10: `escapeCsv` is total at the export interface — `null` and
`undefined` become the empty string, every other value is coerced with
`String(...)` and escaped, and a record lacking a field yields an empty cell
in its exported row. -/
theorem C10_escapeCsv_total :
    escapeCsv .null = "" ∧ escapeCsv .undefined = ""
    ∧ (∀ v : JsVal, v ≠ .null → v ≠ .undefined →
        escapeCsv v = String.mk (escapeCsvChars (jsValToString v).data))
    ∧ (∀ tc : TestCase, tc.jiraId = none → (rowCells tc).headD ['x'] = [])
    ∧ (∀ tc : TestCase, tc.priority = none → (rowCells tc).getD 3 ['x'] = []) := by
  refine ⟨rfl, rfl, ?_, ?_, ?_⟩
  · intro v h1 h2
    match v with
    | .str s => rfl
    | .num n => rfl
    | .boolean b => rfl
    | .null => exact absurd rfl h1
    | .undefined => exact absurd rfl h2
  · intro tc h
    simp [rowCells, h, jsOfField, escapeCsv]
  · intro tc h
    simp [rowCells, h, jsOfField, escapeCsv, List.getD]

/-- Witness for C10: a numeric value is coerced, a missing `jiraId` yields
an empty first cell. -/
theorem C10_escapeCsv_total_witness :
    escapeCsv (JsVal.num 5)
      = String.mk (escapeCsvChars (jsValToString (JsVal.num 5)).data)
    ∧ (rowCells ⟨none, some "F", some "V", some "g", some "w", some "t", some "Alta"⟩).headD ['x']
        = [] :=
  ⟨C10_escapeCsv_total.2.2.1 (JsVal.num 5) (by decide) (by decide),
   C10_escapeCsv_total.2.2.2.1 ⟨none, some "F", some "V", some "g", some "w", some "t", some "Alta"⟩ rfl⟩
